import Mathlib

/-!
# Verification of the Legato dashboard aggregation core (`src/dash/app.js`)

This file gives a shallow embedding, in Lean 4, of the pure aggregation and
classification logic of the Legato dashboard.  JavaScript strings become Lean
`String`s, nullable fields become `Option`, fallible network fetches become
`Except Unit`, each `for` loop becomes a structurally matching recursion, and
the DOM is an explicit record of input fields (read by `getConfig`) and output
sections (written by the renderers).  Timestamps are modelled as integer epoch
milliseconds, with `Date` parsing treated as already done by the environment.

Definitions are translated from the JavaScript source; the few definitions
written from the specification's words (for refinement comparisons) are marked
as such in their doc comments.
-/

namespace Legato

/-! ## JavaScript string primitives

The dashboard relies on `String.prototype.includes`, `toLowerCase`, `split`,
`replace(pattern, '')`, `startsWith` and `endsWith`.  They are modelled here
over `List Char`, matching the JS semantics on the ASCII data the dashboard
manipulates.
-/

/-- Does `hay` begin with `nd`?  (`List Char` level). -/
def strStarts : List Char → List Char → Bool
  | _, [] => true
  | [], _ :: _ => false
  | c :: cs, d :: ds => c == d && strStarts cs ds

/-- Does `hay` contain `nd` as a contiguous subsequence?
Models JS `hay.includes(nd)`. -/
def strHas : List Char → List Char → Bool
  | [], nd => nd.isEmpty
  | c :: cs, nd => strStarts (c :: cs) nd || strHas cs nd

/-- Lifting of `strHas` to strings: JS `hay.includes(nd)`. -/
def sIncludes (hay nd : String) : Bool :=
  strHas hay.toList nd.toList

/-- ASCII lower-casing of one character, as JS `toLowerCase` acts on ASCII. -/
def lowerChar (c : Char) : Char :=
  if Char.toNat c ≥ 65 && Char.toNat c ≤ 90 then Char.ofNat (Char.toNat c + 32) else c

/-- ASCII lower-casing of a string, as JS `toLowerCase` acts on ASCII. -/
def sLower (s : String) : String :=
  ⟨s.toList.map lowerChar⟩

/-- Lifting of `strStarts` to strings: JS `s.startsWith(pre)`. -/
def sStarts (s pre : String) : Bool :=
  strStarts s.toList pre.toList

/-- Models JS `s.endsWith(suf)`. -/
def sEnds (s suf : String) : Bool :=
  strStarts s.toList.reverse suf.toList.reverse

/-- JS `split('/')` on a character list: splits at every `/`, keeping empty
fragments, and returns `[[]]` on the empty string. -/
def splitSlash : List Char → List (List Char)
  | [] => [[]]
  | c :: cs =>
    if c = '/' then [] :: splitSlash cs
    else
      match splitSlash cs with
      | [] => [[c]]
      | g :: gs => (c :: g) :: gs

/-- JS `hay.replace(nd, '')` for a string pattern: removes the first
occurrence of `nd`, or leaves `hay` unchanged when `nd` does not occur. -/
def replFirst : List Char → List Char → List Char
  | [], _ => []
  | c :: cs, nd =>
    if strStarts (c :: cs) nd then List.drop nd.length (c :: cs)
    else c :: replFirst cs nd

/-- Lifting of `replFirst` to strings: JS `hay.replace(nd, '')`. -/
def sReplFirst (hay nd : String) : String :=
  ⟨replFirst hay.toList nd.toList⟩

/-- Decimal digit character for `d < 10` (the only inputs reached). -/
def digitChr (d : Nat) : Char :=
  match d with
  | 0 => '0' | 1 => '1' | 2 => '2' | 3 => '3' | 4 => '4'
  | 5 => '5' | 6 => '6' | 7 => '7' | 8 => '8' | 9 => '9'
  | _ + 10 => '*'

/-- Accumulator loop for decimal rendering of a positive natural. -/
def natToStrAux : Nat → List Char → List Char
  | 0, acc => acc
  | n + 1, acc => natToStrAux ((n + 1) / 10) (digitChr ((n + 1) % 10) :: acc)

/-- Decimal rendering of a natural number, as JS number-to-string conversion
produces for non-negative integers. -/
def natToStr (n : Nat) : String :=
  if n = 0 then "0" else ⟨natToStrAux n []⟩

/-- JS `x || d` for an optional numeric field (`0`, `null` and `undefined`
are all falsy). -/
def jsOrNat (x : Option Nat) (d : Nat) : Nat :=
  match x with
  | some n => if n = 0 then d else n
  | none => d

/-- JS `x || d` for an optional string field (`""`, `null` and `undefined`
are all falsy). -/
def jsOrStr (x : Option String) (d : String) : String :=
  match x with
  | some s => if s = "" then d else s
  | none => d

/-! ## Run records and the status classifier

A workflow run / job / step record carries two nullable string fields,
`status` and `conclusion` (`src/dash/app.js`, used at lines 67–78 and
145–151). -/

/-- A raw run/job/step record: the two fields the classifiers inspect. -/
structure RunRec where
  status : Option String
  conclusion : Option String
  deriving Repr, DecidableEq

/-- The run-level classification of `renderSystemStatus`
(`src/dash/app.js` lines 64–78): start from `success`/"Operational", and if a
record is present refine by `status` first, then `conclusion`. -/
def classifyRun (latestRun : Option RunRec) : String × String :=
  match latestRun with
  | none => ("success", "Operational")
  | some r =>
    if r.status == some "in_progress" || r.status == some "queued" then
      ("loading", "Running")
    else if r.conclusion == some "failure" then
      ("error", "Failed")
    else if r.conclusion == some "cancelled" then
      ("warning", "Cancelled")
    else
      ("success", "Operational")

/-- The four-way job/step-level status class (`src/dash/app.js` lines
149–151 for jobs, 204–206 for transcript runs): `conclusion` is examined
before `status`, and the vocabulary is `success`/`failure`/`running`/
`pending`. -/
def statusClassOf (r : RunRec) : String :=
  if r.conclusion == some "success" then "success"
  else if r.conclusion == some "failure" then "failure"
  else if r.status == some "in_progress" then "running"
  else "pending"

/-- The display glyph chosen at the job and step level (lines 145–147 and
169–171, identical code at both sites): HTML entities for check mark, cross
mark, arrows and hourglass. -/
def statusIcon (r : RunRec) : String :=
  if r.conclusion == some "success" then "&#x2705;"
  else if r.conclusion == some "failure" then "&#x274C;"
  else if r.status == some "in_progress" then "&#x1F504;"
  else "&#x23F3;"

/-- Modelled from the spec: the identification of the job/step display
vocabulary with the run-level status vocabulary "up to display glyphs" —
`failure` is the failure glyph shown where the run level says `error`,
`running` and `pending` are the in-flight glyphs shown where the run level
says `loading`, and `success` is shared.  Used only to compare the two
classifiers (claim C4). -/
def glyphKind (k : String) : String :=
  if k = "failure" then "error"
  else if k = "running" then "loading"
  else if k = "pending" then "loading"
  else k

/-! ## The status board (`renderSystemStatus`) -/

/-- The static monitored-repository table (lines 6–10); `Object.entries`
iterates it in this insertion order. -/
def REPOS : List (String × String) :=
  [("conduct", "Legato.Conduct"), ("library", "Legato.Library"), ("listen", "Legato.Listen")]

/-- Repository name at position `i` of the static table. -/
def repoNameAt (i : Nat) : String :=
  ((REPOS.get? i).map (fun kv => kv.2)).getD ""

/-- Response of the latest-run endpoint (`actions/runs?per_page=1`),
restricted to the fields `renderSystemStatus` consumes. -/
structure RunsResp where
  workflow_runs : List RunRec
  deriving Repr, DecidableEq

/-- One entry of the rendered status board. -/
structure BoardEntry where
  name : String
  status : String
  statusText : String
  deriving Repr, DecidableEq

/-- One iteration of the repository loop of `renderSystemStatus` (lines
59–84): a successful fetch classifies the first returned run, a failed fetch
is caught and yields `error`/"Unavailable". -/
def boardEntry (repoName : String) (res : Except Unit RunsResp) : BoardEntry :=
  match res with
  | .ok runs =>
    let p := classifyRun runs.workflow_runs.head?
    ⟨repoName, p.1, p.2⟩
  | .error _ => ⟨repoName, "error", "Unavailable"⟩

/-- The status board of `renderSystemStatus` (lines 57–91): the list of
entries rendered into the container, given each repository's fetch
outcome. -/
def renderSystemStatus (fetch : String → Except Unit RunsResp) : List BoardEntry :=
  REPOS.map (fun kv => boardEntry kv.2 (fetch kv.2))

/-! ## Statistics (`renderStats`) -/

/-- Response of the workflow-run-count endpoint, restricted to the consumed
field: `total_count` (nullable, JS falsy when `0`). -/
structure TotalResp where
  total_count : Option Nat
  deriving Repr, DecidableEq

/-- The transcripts counter of `renderStats` (lines 99–104): on success the
element shows `total_count || 0`, on a caught fetch failure it shows "-". -/
def statTranscriptsDisplay (res : Except Unit TotalResp) : String :=
  match res with
  | .ok runs => natToStr (jsOrNat runs.total_count 0)
  | .error _ => "-"

/-- An entry of a repository-contents listing: the consumed fields. -/
structure ContentEntry where
  name : String
  type : String
  deriving Repr, DecidableEq

/-- The per-directory accumulation loop of the artifact counter (lines
112–119): a failing directory listing is caught and contributes nothing. -/
def countDirFiles (fetchDir : String → Except Unit (List ContentEntry)) :
    List ContentEntry → Nat → Nat
  | [], acc => acc
  | d :: ds, acc =>
    match fetchDir d.name with
    | .ok files => countDirFiles fetchDir ds (acc + (files.filter (fun f => sEnds f.name ".md")).length)
    | .error _ => countDirFiles fetchDir ds acc

/-- The artifacts counter of `renderStats` (lines 107–124). -/
def statArtifactsDisplay (contents : Except Unit (List ContentEntry))
    (fetchDir : String → Except Unit (List ContentEntry)) : String :=
  match contents with
  | .ok cs =>
    let artifactDirs := cs.filter (fun c => c.type == "dir" && !(sStarts c.name "."))
    natToStr (countDirFiles fetchDir artifactDirs 0)
  | .error _ => "-"

/-- A repository entry of the organization listing: the consumed fields. -/
structure RepoEntry where
  name : String
  html_url : String
  updated_at : Int
  deriving Repr, DecidableEq

/-- The projects counter of `renderStats` (lines 127–133). -/
def statProjectsDisplay (repos : Except Unit (List RepoEntry)) : String :=
  match repos with
  | .ok rs => natToStr ((rs.filter (fun r => sStarts r.name "Lab.")).length)
  | .error _ => "-"

/-- The three counters written by `renderStats` (lines 95–134). -/
structure StatsView where
  transcripts : String
  artifacts : String
  projects : String
  deriving Repr, DecidableEq

/-! ## The job tree (`buildJobTree`) -/

/-- A step record: a name on top of the classified `status`/`conclusion`
pair. -/
structure Step extends RunRec where
  name : String
  deriving Repr, DecidableEq

/-- A job record: name, classification fields and an ordered step list
(absent step lists are the empty list, indistinguishable in the output). -/
structure Job extends RunRec where
  name : String
  steps : List Step
  deriving Repr, DecidableEq

/-- The boilerplate filter of `buildJobTree` (lines 163–167): a step is
skipped when its lower-cased name contains one of three markers. -/
def stepSkip (name : String) : Bool :=
  sIncludes (sLower name) "checkout" ||
  sIncludes (sLower name) "setup python" ||
  sIncludes (sLower name) "install"

/-- A child (step) node of the rendered tree. -/
structure StepNode where
  icon : String
  name : String
  deriving Repr, DecidableEq

/-- A root (job) node of the rendered tree with its children. -/
structure JobNode where
  icon : String
  statusClass : String
  name : String
  children : List StepNode
  deriving Repr, DecidableEq

/-- The inner step loop of `buildJobTree` (lines 161–180). -/
def stepNodes : List Step → List StepNode
  | [] => []
  | st :: rest =>
    if stepSkip st.name then stepNodes rest
    else ⟨statusIcon st.toRunRec, st.name⟩ :: stepNodes rest

/-- The tree produced by `buildJobTree` (lines 137–185): `none` is the
"No job details available" marker returned for a missing or empty job
list. -/
def buildJobTree (jobs : List Job) : Option (List JobNode) :=
  if jobs.isEmpty then none
  else some (jobs.map (fun j =>
    ⟨statusIcon j.toRunRec, statusClassOf j.toRunRec, j.name, stepNodes j.steps⟩))

/-! ## Artifact extraction (`renderLibraryArtifacts`) -/

/-- A changed-file entry of a single-commit detail response. -/
structure FileEntry where
  filename : String
  deriving Repr, DecidableEq

/-- A knowledge artifact as accumulated by `renderLibraryArtifacts`
(lines 277–282). -/
structure Artifact where
  name : String
  category : String
  path : String
  date : Int
  deriving Repr, DecidableEq

/-- Category derivation (lines 273–274): first path segment when the split
has more than one part, else the literal "unknown". -/
def deriveCategory (filename : String) : String :=
  let parts := splitSlash filename.toList
  if parts.length > 1 then ⟨parts.headI⟩ else "unknown"

/-- Name derivation (line 275): last path segment with JS
`replace('.md', '')` applied, i.e. the first occurrence of ".md" removed. -/
def deriveName (filename : String) : String :=
  let parts := splitSlash filename.toList
  sReplFirst ⟨parts.getLastD []⟩ ".md"

/-- Modelled from the spec: the final path segment with the
knowledge-document extension ".md" stripped from its end — the
specification's description of the derived `name`.  Used only to compare
against `deriveName` (claim C7). -/
def specStripExtName (filename : String) : String :=
  let last : List Char := (splitSlash filename.toList).getLastD []
  if strStarts last.reverse ".md".toList.reverse then ⟨last.take (last.length - 3)⟩
  else ⟨last⟩

/-- The admission test of lines 266–268: markdown extension, no "README"
substring (case-sensitive), path not already seen in this pass. -/
def fileEligible (seen : List String) (f : FileEntry) : Bool :=
  sEnds f.filename ".md" && !(sIncludes f.filename "README") && !(seen.contains f.filename)

/-- Artifact construction on admission (lines 272–282). -/
def mkArtifact (date : Int) (f : FileEntry) : Artifact :=
  ⟨deriveName f.filename, deriveCategory f.filename, f.filename, date⟩

/-- The mutable state of the extraction loops: the artifact accumulator and
the set of already-admitted paths (lines 256–257). -/
structure ExtState where
  artifacts : List Artifact
  seen : List String
  deriving Repr, DecidableEq

/-- The inner file loop (lines 265–285): admit eligible unseen files, and
break out once five artifacts have been accumulated. -/
def processFiles (date : Int) : List FileEntry → ExtState → ExtState
  | [], s => s
  | f :: fs, s =>
    if fileEligible s.seen f then
      let s' : ExtState := ⟨s.artifacts ++ [mkArtifact date f], f.filename :: s.seen⟩
      if 5 ≤ s'.artifacts.length then s' else processFiles date fs s'
    else processFiles date fs s

/-- One commit of the scanned window together with its lazily fetched
file-change detail (`details.files || []`; a failing detail fetch is the
`error` case, caught at lines 287–289). -/
structure CommitData where
  sha : String
  date : Int
  files : Except Unit (List FileEntry)
  deriving Repr

/-- The outer commit loop (lines 259–290): walked newest-first, stopping as
soon as five artifacts are accumulated; a commit whose detail fetch failed
contributes nothing. -/
def processCommits : List CommitData → ExtState → ExtState
  | [], s => s
  | c :: cs, s =>
    if 5 ≤ s.artifacts.length then s
    else
      match c.files with
      | .ok fs => processCommits cs (processFiles c.date fs s)
      | .error _ => processCommits cs s

/-- The artifact list accumulated by one pass of `renderLibraryArtifacts`
over a commit window (lines 256–290), starting from empty state. -/
def extractArtifacts (commits : List CommitData) : List Artifact :=
  (processCommits commits ⟨[], []⟩).artifacts

/-! ## Lab projects (`renderLabProjects`) -/

/-- A classified sub-project (lines 346–353). -/
structure Project where
  name : String
  fullName : String
  type : String
  status : String
  url : String
  updated : Int
  deriving Repr, DecidableEq

/-- Classification of one Lab repository (lines 331–354): kind from name
substrings, status from the open-issues lookup, whose failure is caught and
treated as "no open issues". -/
def classifyLabRepo (issuesFor : String → Except Unit (List Unit)) (repo : RepoEntry) : Project :=
  let isChord := sIncludes repo.name ".Chord"
  let isNote := sIncludes repo.name ".Note"
  let projectType := if isChord then "chord" else if isNote then "note" else "unknown"
  let hasOpenIssues :=
    match issuesFor repo.name with
    | .ok issues => decide (issues.length > 0)
    | .error _ => false
  ⟨sReplFirst repo.name "Lab.", repo.name, projectType,
    if hasOpenIssues then "waiting" else "active", repo.html_url, repo.updated_at⟩

/-! ## Time formatting, configuration and the full refresh pass

Timestamps are integer epoch milliseconds; `new Date(s) - new Date()` is the
difference of the record's timestamp and the current instant.  The DOM is a
record holding the two input fields read by `getConfig` and the output
sections written by the renderers; each view model carries exactly the data
interpolated into the fixed HTML templates. -/

/-- The relative-age formatter `timeAgo` (lines 41–50): `now` and `date` are
epoch milliseconds, `Math.floor` of a real quotient of integers is floor
division. -/
def timeAgo (now date : Int) : String :=
  let seconds : Int := (now - date).fdiv 1000
  if seconds < 60 then "just now"
  else if seconds < 3600 then natToStr (seconds.fdiv 60).toNat ++ "m ago"
  else if seconds < 86400 then natToStr (seconds.fdiv 3600).toNat ++ "h ago"
  else natToStr (seconds.fdiv 86400).toNat ++ "d ago"

/-- JS `a || b` for two optional strings (`run.conclusion || run.status`). -/
def jsOrOpt (a b : Option String) : Option String :=
  match a with
  | some s => if s = "" then b else some s
  | none => b

/-- The configuration read by `getConfig` (lines 13–18). -/
structure Config where
  org : String
  token : Option String
  deriving Repr, DecidableEq

/-- A workflow run as consumed by `renderTranscriptJobs` (lines 203–233). -/
structure WorkflowRun extends RunRec where
  id : Nat
  display_title : Option String
  name : String
  created_at : Int
  html_url : String
  deriving Repr, DecidableEq

/-- Response of the per-workflow run-list endpoint (`per_page=5`). -/
structure TranscriptRunsResp where
  workflow_runs : List WorkflowRun
  deriving Repr, DecidableEq

/-- The tree area of one rendered transcript run: either the caught
"Could not load job details" marker or a built tree (lines 211–217). -/
inductive TreeView where
  | couldNotLoad : TreeView
  | tree : Option (List JobNode) → TreeView
  deriving Repr, DecidableEq

/-- One rendered transcript run (lines 219–233). -/
structure RunView where
  title : String
  time : String
  statusClass : String
  statusText : Option String
  url : String
  treeArea : TreeView
  deriving Repr, DecidableEq

/-- The transcript-jobs section: caught whole-section error, empty marker,
or the run list (lines 188–240). -/
inductive JobsView where
  | errorMsg : JobsView
  | emptyMarker : JobsView
  | runList : List RunView → JobsView
  deriving Repr, DecidableEq

/-- One rendered artifact row (lines 299–307). -/
structure ArtifactItem where
  name : String
  time : String
  category : String
  deriving Repr, DecidableEq

/-- The library-artifacts section (lines 243–313). -/
inductive LibraryView where
  | errorMsg : LibraryView
  | emptyMarker : LibraryView
  | artifactList : List ArtifactItem → LibraryView
  deriving Repr, DecidableEq

/-- One rendered project row (lines 358–369): the status badge shows
"awaiting" for a waiting project and "active" otherwise. -/
structure ProjectItem where
  name : String
  url : String
  time : String
  type : String
  statusBadge : String
  deriving Repr, DecidableEq

/-- The lab-projects section (lines 316–375). -/
inductive ProjectsView where
  | errorMsg : ProjectsView
  | emptyMarker : ProjectsView
  | projectList : List ProjectItem → ProjectsView
  deriving Repr, DecidableEq

/-- A commit of the commit-list endpoint: id and authorship timestamp
(`commit.commit.author.date`). -/
structure CommitEntry where
  sha : String
  date : Int
  deriving Repr, DecidableEq

/-- The upstream data set of one pass: every endpoint the dashboard queries,
as a function of the configuration (which selects organization and
credential) and the endpoint's parameters, each independently fallible. -/
structure Upstream where
  latestRuns : Config → String → Except Unit RunsResp
  transcriptRuns100 : Config → Except Unit TotalResp
  transcriptRuns5 : Config → Except Unit TranscriptRunsResp
  libContents : Config → Except Unit (List ContentEntry)
  dirContents : Config → String → Except Unit (List ContentEntry)
  userRepos : Config → Except Unit (List RepoEntry)
  userReposSorted : Config → Except Unit (List RepoEntry)
  runJobs : Config → Nat → Except Unit (List Job)
  commitList : Config → Except Unit (List CommitEntry)
  commitDetail : Config → String → Except Unit (List FileEntry)
  issuesFor : Config → String → Except Unit (List Unit)

/-- The DOM as the dashboard touches it: the two configuration inputs that
`getConfig` reads, and the output sections the renderers overwrite. -/
structure Dom where
  orgField : String
  tokenField : String
  systemStatus : List BoardEntry
  statTranscripts : String
  statArtifacts : String
  statProjects : String
  transcriptJobs : JobsView
  libraryArtifacts : LibraryView
  labProjects : ProjectsView
  lastUpdated : String

/-- Configuration lookup (lines 13–18): empty organization input falls back
to "bobbyhiddn", empty credential input becomes `null`. -/
def getConfig (d : Dom) : Config :=
  ⟨jsOrStr (some d.orgField) "bobbyhiddn",
    if d.tokenField = "" then none else some d.tokenField⟩

/-- The view model written by `renderStats` (lines 95–134). -/
def renderStats (u : Upstream) (cfg : Config) : StatsView :=
  ⟨statTranscriptsDisplay (u.transcriptRuns100 cfg),
    statArtifactsDisplay (u.libContents cfg) (u.dirContents cfg),
    statProjectsDisplay (u.userRepos cfg)⟩

/-- The view model written by `renderTranscriptJobs` (lines 188–240). -/
def renderTranscriptJobs (u : Upstream) (cfg : Config) (now : Int) : JobsView :=
  match u.transcriptRuns5 cfg with
  | .error _ => .errorMsg
  | .ok resp =>
    if resp.workflow_runs.isEmpty then .emptyMarker
    else .runList (resp.workflow_runs.map (fun run =>
      let treeArea :=
        match u.runJobs cfg run.id with
        | .ok jobs => TreeView.tree (buildJobTree jobs)
        | .error _ => TreeView.couldNotLoad
      ⟨jsOrStr run.display_title run.name, timeAgo now run.created_at,
        statusClassOf run.toRunRec, jsOrOpt run.conclusion run.status,
        run.html_url, treeArea⟩))

/-- The view model written by `renderLibraryArtifacts` (lines 243–313). -/
def renderLibraryArtifacts (u : Upstream) (cfg : Config) (now : Int) : LibraryView :=
  match u.commitList cfg with
  | .error _ => .errorMsg
  | .ok commits =>
    if commits.isEmpty then .emptyMarker
    else
      let window := commits.map (fun c => CommitData.mk c.sha c.date (u.commitDetail cfg c.sha))
      let artifacts := extractArtifacts window
      if artifacts.isEmpty then .emptyMarker
      else .artifactList (artifacts.map (fun a => ⟨a.name, timeAgo now a.date, a.category⟩))

/-- The view model written by `renderLabProjects` (lines 316–375). -/
def renderLabProjects (u : Upstream) (cfg : Config) (now : Int) : ProjectsView :=
  match u.userReposSorted cfg with
  | .error _ => .errorMsg
  | .ok repos =>
    let labRepos := (repos.filter (fun r => sStarts r.name "Lab.")).take 5
    if labRepos.isEmpty then .emptyMarker
    else .projectList ((labRepos.map (classifyLabRepo (u.issuesFor cfg))).map (fun p =>
      ⟨p.name, p.url, timeAgo now p.updated, p.type,
        if p.status = "waiting" then "awaiting" else "active"⟩))

/-- The five derived sections of one pass, as a function of the
configuration only. -/
def refreshOutputs (u : Upstream) (cfg : Config) (now : Int) :
    List BoardEntry × StatsView × JobsView × LibraryView × ProjectsView :=
  (renderSystemStatus (u.latestRuns cfg),
    renderStats u cfg,
    renderTranscriptJobs u cfg now,
    renderLibraryArtifacts u cfg now,
    renderLabProjects u cfg now)

/-- One full aggregation pass `refreshAll` (lines 378–390) acting on the
DOM: write the "Refreshing..." marker, re-derive and overwrite every
section from the configured upstream, then write the locale-formatted
current time. -/
def refreshAll (u : Upstream) (now : Int) (nowLocale : String) (d : Dom) : Dom :=
  let d1 := { d with lastUpdated := "Refreshing..." }
  let o := refreshOutputs u (getConfig d1) now
  { d1 with
    systemStatus := o.1,
    statTranscripts := o.2.1.transcripts,
    statArtifacts := o.2.1.artifacts,
    statProjects := o.2.1.projects,
    transcriptJobs := o.2.2.1,
    libraryArtifacts := o.2.2.2.1,
    labProjects := o.2.2.2.2,
    lastUpdated := nowLocale }

/-! ## Helper lemmas -/

/-- No decimal digit character is the dash. -/
theorem digitChr_ne_dash (d : Nat) : digitChr d ≠ '-' := by
  unfold digitChr
  split <;> decide

/-- Every character produced by the decimal-rendering loop is a digit
character or comes from the accumulator. -/
theorem natToStrAux_mem (n : Nat) (acc : List Char) :
    ∀ ch ∈ natToStrAux n acc, (∃ d, ch = digitChr d) ∨ ch ∈ acc := by
  induction n, acc using natToStrAux.induct with
  | case1 acc =>
    intro ch h
    rw [natToStrAux] at h
    exact Or.inr h
  | case2 n acc ih =>
    intro ch h
    rw [natToStrAux] at h
    rcases ih ch h with h' | h'
    · exact Or.inl h'
    · rcases List.mem_cons.mp h' with h'' | h''
      · exact Or.inl ⟨_, h''⟩
      · exact Or.inr h''

/-- Decimal rendering of a natural number never yields the dash display. -/
theorem natToStr_ne_dash (n : Nat) : natToStr n ≠ "-" := by
  unfold natToStr
  split
  · decide
  · intro h
    have hdata : natToStrAux n [] = ['-'] := congrArg String.data h
    have hmem : '-' ∈ natToStrAux n [] := by
      rw [hdata]
      exact List.mem_singleton_self '-'
    rcases natToStrAux_mem n [] '-' hmem with ⟨d, hd⟩ | h'
    · exact digitChr_ne_dash d hd.symm
    · exact List.not_mem_nil '-' h'

/-! ## Claim theorems -/

/-- C1: the run-status classification of `renderSystemStatus` is total and
follows the first-match-wins decision order — no record gives
success/"Operational"; an in-progress or queued status gives
loading/"Running"; otherwise a failure conclusion gives error/"Failed";
otherwise a cancelled conclusion gives warning/"Cancelled"; otherwise
success/"Operational" — over all sixteen status/conclusion combinations. -/
theorem run_status_classification_total (s c : Option String)
    (hs : s ∈ ([none, some "in_progress", some "queued", some "completed"] :
      List (Option String)))
    (hc : c ∈ ([none, some "success", some "failure", some "cancelled"] :
      List (Option String))) :
    classifyRun none = ("success", "Operational") ∧
    classifyRun (some ⟨s, c⟩) =
      (if s = some "in_progress" ∨ s = some "queued" then ("loading", "Running")
       else if c = some "failure" then ("error", "Failed")
       else if c = some "cancelled" then ("warning", "Cancelled")
       else ("success", "Operational")) := by
  refine ⟨rfl, ?_⟩
  fin_cases hs <;> fin_cases hc <;> decide

/-- Witness for C1 at status queued, conclusion failure. -/
theorem run_status_classification_total_witness :
    classifyRun (some ⟨some "queued", some "failure"⟩) = ("loading", "Running") := by
  have h := (run_status_classification_total (some "queued") (some "failure")
    (by decide) (by decide)).2
  simpa using h

/-- C4 counterexample: the record with status in_progress and conclusion
success is classified `loading` at the run level (status is examined first)
but `success` at the job/step level (conclusion is examined first), so the
two classifications are not identical. -/
theorem job_vs_run_classification_counterexample :
    (classifyRun (some ⟨some "in_progress", some "success"⟩)).1 = "loading" ∧
    statusClassOf ⟨some "in_progress", some "success"⟩ = "success" ∧
    glyphKind (statusClassOf ⟨some "in_progress", some "success"⟩) ≠
      (classifyRun (some ⟨some "in_progress", some "success"⟩)).1 := by
  refine ⟨rfl, rfl, ?_⟩
  decide

/-- C4 amended: under the glyph identification (failure as error, running
and pending as loading), the job/step-level classification of `buildJobTree`
agrees with the run-level classification of `renderSystemStatus` exactly on
those records whose status is in_progress or queued precisely when their
conclusion is neither success nor failure; on all other records the two
levels disagree. -/
theorem job_vs_run_classification_agreement (r : RunRec) :
    glyphKind (statusClassOf r) = (classifyRun (some r)).1 ↔
      ((r.status = some "in_progress" ∨ r.status = some "queued") ↔
        ¬(r.conclusion = some "success" ∨ r.conclusion = some "failure")) := by
  obtain ⟨s, c⟩ := r
  simp only [statusClassOf, classifyRun, glyphKind, beq_iff_eq]
  by_cases hc1 : c = some "success" <;> by_cases hc2 : c = some "failure" <;>
    by_cases hc3 : c = some "cancelled" <;> by_cases hs1 : s = some "in_progress" <;>
    by_cases hs2 : s = some "queued" <;>
    simp_all

/-- C6: in `renderStats`, a successful run-count query with total count zero
displays "0", a transport failure on the same query displays "-", and a
successful query can never display "-" — the two outcomes are never
conflated. -/
theorem transcript_counter_zero_vs_unavailable (runs : TotalResp) (e : Unit)
    (h0 : runs.total_count = some 0) :
    statTranscriptsDisplay (.ok runs) = "0" ∧
    statTranscriptsDisplay (.error e) = "-" ∧
    ∀ anyRuns : TotalResp, statTranscriptsDisplay (.ok anyRuns) ≠ "-" := by
  refine ⟨?_, rfl, ?_⟩
  · simp [statTranscriptsDisplay, h0, jsOrNat, natToStr]
  · intro anyRuns
    simp only [statTranscriptsDisplay]
    exact natToStr_ne_dash _

/-- Witness for C6 at the empty run list (total count zero). -/
theorem transcript_counter_zero_vs_unavailable_witness :
    statTranscriptsDisplay (.ok ⟨some 0⟩) = "0" :=
  (transcript_counter_zero_vs_unavailable ⟨some 0⟩ () rfl).1

/-- C10: among markdown files, the documentation-index exclusion of
`renderLibraryArtifacts` is a case-sensitive substring test for "README" —
a fresh-pass file is rejected exactly when its path contains the uppercase
substring — and the lowercase path "notes/readme.md" is admitted. -/
theorem readme_filter_case_sensitive (f : FileEntry)
    (hmd : sEnds f.filename ".md" = true) :
    (fileEligible [] f = false ↔ sIncludes f.filename "README" = true) ∧
    fileEligible [] ⟨"notes/readme.md"⟩ = true := by
  refine ⟨?_, by decide⟩
  simp [fileEligible, hmd]

/-- Witness for C10 at the lowercase readme path. -/
theorem readme_filter_case_sensitive_witness :
    (fileEligible [] ⟨"notes/readme.md"⟩ = false ↔
      sIncludes "notes/readme.md" "README" = true) :=
  (readme_filter_case_sensitive ⟨"notes/readme.md"⟩ (by decide)).1

/-- C2: for every assignment of fetch outcomes, the status board has exactly
one entry per monitored repository in the static list order; a repository
whose fetch fails is rendered error/"Unavailable", and a repository whose
fetch succeeds is rendered with its classified latest-run status — each
entry depends only on that repository's own outcome. -/
theorem status_board_isolation (fetch : String → Except Unit RunsResp) :
    (renderSystemStatus fetch).length = REPOS.length ∧
    ∀ i, i < REPOS.length →
      (∀ e, fetch (repoNameAt i) = .error e →
        (renderSystemStatus fetch)[i]? = some ⟨repoNameAt i, "error", "Unavailable"⟩) ∧
      (∀ runs, fetch (repoNameAt i) = .ok runs →
        (renderSystemStatus fetch)[i]? =
          some ⟨repoNameAt i, (classifyRun runs.workflow_runs.head?).1,
            (classifyRun runs.workflow_runs.head?).2⟩) := by
  refine ⟨by simp [renderSystemStatus, REPOS], ?_⟩
  intro i hi
  have hi3 : i < 3 := by simpa [REPOS] using hi
  interval_cases i <;>
    constructor <;> intro x hx <;>
      simp [repoNameAt, REPOS] at hx <;>
      simp [renderSystemStatus, REPOS, repoNameAt, boardEntry, hx]

/-- Witness for C2: with the Library fetch failing and the others
succeeding, the middle entry reads error/"Unavailable". -/
theorem status_board_isolation_witness :
    (renderSystemStatus (fun n =>
      if n = "Legato.Library" then .error () else .ok ⟨[]⟩))[1]? =
      some ⟨"Legato.Library", "error", "Unavailable"⟩ := by
  have h := ((status_board_isolation (fun n =>
    if n = "Legato.Library" then .error () else .ok ⟨[]⟩)).2 1 (by decide)).1 ()
    (by simp [repoNameAt, REPOS])
  simpa [repoNameAt, REPOS] using h

/-- C8: a repository named Lab.Chord.Widget is classified kind chord, and
its status is waiting with at least one open issue, active with zero open
issues; for every repository, a failing issues lookup is treated as no open
issues, so the status is active. -/
theorem lab_project_classification (issuesFor : String → Except Unit (List Unit))
    (url : String) (upd : Int) :
    (∀ l, issuesFor "Lab.Chord.Widget" = .ok l → 0 < l.length →
      classifyLabRepo issuesFor ⟨"Lab.Chord.Widget", url, upd⟩ =
        ⟨"Chord.Widget", "Lab.Chord.Widget", "chord", "waiting", url, upd⟩) ∧
    (issuesFor "Lab.Chord.Widget" = .ok [] →
      classifyLabRepo issuesFor ⟨"Lab.Chord.Widget", url, upd⟩ =
        ⟨"Chord.Widget", "Lab.Chord.Widget", "chord", "active", url, upd⟩) ∧
    (∀ repo : RepoEntry, ∀ e, issuesFor repo.name = .error e →
      (classifyLabRepo issuesFor repo).status = "active") := by
  refine ⟨?_, ?_, ?_⟩
  · intro l hl hpos
    simp only [classifyLabRepo, hl, gt_iff_lt, decide_eq_true hpos]
    rfl
  · intro hl
    simp only [classifyLabRepo, hl]
    rfl
  · intro repo e he
    simp [classifyLabRepo, he]

/-- Witness for C8 at one open issue. -/
theorem lab_project_classification_witness :
    classifyLabRepo (fun _ => .ok [()]) ⟨"Lab.Chord.Widget", "u", 0⟩ =
      ⟨"Chord.Widget", "Lab.Chord.Widget", "chord", "waiting", "u", 0⟩ :=
  (lab_project_classification (fun _ => .ok [()]) "u" 0).1 [()] rfl (by decide)

/-- The step loop of `buildJobTree` is exactly a boilerplate filter followed
by node construction, in input order. -/
theorem stepNodes_eq_filter_map (steps : List Step) :
    stepNodes steps = (steps.filter (fun st => !stepSkip st.name)).map
      (fun st => ⟨statusIcon st.toRunRec, st.name⟩) := by
  induction steps with
  | nil => rfl
  | cons st rest ih =>
    by_cases h : stepSkip st.name <;> simp [stepNodes, List.filter_cons, h, ih]

/-- C5: `buildJobTree` omits exactly the steps whose name case-insensitively
contains "checkout", "setup python" or "install", and emits every other
step as a child of its job in input order; the steps
[Checkout code, Build, Run tests] yield exactly two children, Build then
Run tests. -/
theorem job_tree_step_filter (jobs : List Job) (hne : jobs ≠ []) :
    (buildJobTree [] = none) ∧
    (∃ nodes : List JobNode, buildJobTree jobs = some nodes ∧
      nodes.length = jobs.length ∧
      ∀ (i : Nat) (j : Job), jobs[i]? = some j →
        nodes[i]? = some (JobNode.mk (statusIcon j.toRunRec) (statusClassOf j.toRunRec)
          j.name ((j.steps.filter (fun st => !stepSkip st.name)).map
            (fun st => StepNode.mk (statusIcon st.toRunRec) st.name)))) ∧
    (buildJobTree [⟨⟨some "completed", some "failure"⟩, "test",
        [⟨⟨some "completed", some "success"⟩, "Checkout code"⟩,
         ⟨⟨some "completed", some "success"⟩, "Build"⟩,
         ⟨⟨some "completed", some "failure"⟩, "Run tests"⟩]⟩] =
      some [⟨"&#x274C;", "failure", "test",
        [⟨"&#x2705;", "Build"⟩, ⟨"&#x274C;", "Run tests"⟩]⟩]) := by
  refine ⟨rfl, ?_, by decide⟩
  refine ⟨jobs.map (fun j =>
    ⟨statusIcon j.toRunRec, statusClassOf j.toRunRec, j.name, stepNodes j.steps⟩),
    ?_, by simp, ?_⟩
  · simp [buildJobTree, hne]
  · intro i j hj
    simp [List.getElem?_map, hj, stepNodes_eq_filter_map]

/-- Witness for C5: an empty job list yields the explicit no-details
marker. -/
theorem job_tree_step_filter_witness : buildJobTree [] = none :=
  (job_tree_step_filter [⟨⟨none, none⟩, "j", []⟩] (by simp)).1

/-- The file loop only ever appends to the artifact accumulator. -/
theorem processFiles_append (date : Int) (fs : List FileEntry) (s : ExtState) :
    ∃ t, (processFiles date fs s).artifacts = s.artifacts ++ t := by
  induction fs generalizing s with
  | nil => exact ⟨[], by simp [processFiles]⟩
  | cons f rest ih =>
    rw [processFiles]
    dsimp only
    split
    · split
      · exact ⟨[mkArtifact date f], rfl⟩
      · obtain ⟨t, ht⟩ := ih ⟨s.artifacts ++ [mkArtifact date f], f.filename :: s.seen⟩
        exact ⟨mkArtifact date f :: t, by rw [ht]; simp⟩
    · exact ih s

/-- The commit loop only ever appends to the artifact accumulator. -/
theorem processCommits_append (cs : List CommitData) (s : ExtState) :
    ∃ t, (processCommits cs s).artifacts = s.artifacts ++ t := by
  induction cs generalizing s with
  | nil => exact ⟨[], by simp [processCommits]⟩
  | cons c rest ih =>
    rw [processCommits]
    split
    · exact ⟨[], by simp⟩
    · cases hc : c.files with
      | ok fs =>
        obtain ⟨t1, h1⟩ := processFiles_append c.date fs s
        obtain ⟨t2, h2⟩ := ih (processFiles c.date fs s)
        exact ⟨t1 ++ t2, by rw [h2, h1, List.append_assoc]⟩
      | error e => exact ih s

/-- The file loop preserves the extraction invariant: accumulated paths are
pairwise distinct and all recorded in the seen set. -/
theorem processFiles_inv (date : Int) (fs : List FileEntry) (s : ExtState)
    (h1 : ((s.artifacts.map Artifact.path).Nodup))
    (h2 : ∀ a ∈ s.artifacts, a.path ∈ s.seen) :
    (((processFiles date fs s).artifacts.map Artifact.path).Nodup) ∧
    ∀ a ∈ (processFiles date fs s).artifacts, a.path ∈ (processFiles date fs s).seen := by
  induction fs generalizing s with
  | nil =>
    rw [processFiles]
    exact ⟨h1, h2⟩
  | cons f rest ih =>
    rw [processFiles]
    dsimp only
    split
    case isTrue helig =>
      have hnotseen : f.filename ∉ s.seen := by
        simp [fileEligible] at helig
        tauto
      have h1' : (((s.artifacts ++ [mkArtifact date f]).map Artifact.path).Nodup) := by
        simp [List.nodup_append, h1, mkArtifact]
        intro a ha hpath
        exact hnotseen (hpath ▸ h2 a ha)
      have h2' : ∀ a ∈ s.artifacts ++ [mkArtifact date f],
          a.path ∈ f.filename :: s.seen := by
        intro a ha
        rcases List.mem_append.mp ha with ha' | ha'
        · exact List.mem_cons_of_mem _ (h2 a ha')
        · rcases List.mem_singleton.mp ha' with rfl
          exact List.mem_cons_self _ _
      split
      · exact ⟨h1', h2'⟩
      · exact ih ⟨s.artifacts ++ [mkArtifact date f], f.filename :: s.seen⟩ h1' h2'
    case isFalse helig => exact ih s h1 h2

/-- The commit loop preserves the extraction invariant. -/
theorem processCommits_inv (cs : List CommitData) (s : ExtState)
    (h1 : ((s.artifacts.map Artifact.path).Nodup))
    (h2 : ∀ a ∈ s.artifacts, a.path ∈ s.seen) :
    (((processCommits cs s).artifacts.map Artifact.path).Nodup) ∧
    ∀ a ∈ (processCommits cs s).artifacts, a.path ∈ (processCommits cs s).seen := by
  induction cs generalizing s with
  | nil =>
    rw [processCommits]
    exact ⟨h1, h2⟩
  | cons c rest ih =>
    rw [processCommits]
    split
    · exact ⟨h1, h2⟩
    · cases hc : c.files with
      | ok fs =>
        obtain ⟨g1, g2⟩ := processFiles_inv c.date fs s h1 h2
        exact ih (processFiles c.date fs s) g1 g2
      | error e => exact ih s h1 h2

/-- Once the artifact cap is reached, the commit loop does nothing more. -/
theorem processCommits_of_full (cs : List CommitData) (s : ExtState)
    (h : 5 ≤ s.artifacts.length) : processCommits cs s = s := by
  cases cs with
  | nil => rfl
  | cons c rest =>
    rw [processCommits]
    simp [h]

/-- The commit loop distributes over concatenation of the window. -/
theorem processCommits_append_eq (xs ys : List CommitData) (s : ExtState) :
    processCommits (xs ++ ys) s = processCommits ys (processCommits xs s) := by
  induction xs generalizing s with
  | nil => rfl
  | cons c rest ih =>
    rw [List.cons_append, processCommits, processCommits]
    split
    case isTrue h => exact (processCommits_of_full ys s h).symm
    case isFalse h =>
      cases hc : c.files with
      | ok fs => exact ih (processFiles c.date fs s)
      | error e => exact ih s

/-- C3: one pass over any commit window yields pairwise-distinct artifact
paths, and the artifacts extracted from any newest-first prefix of the
window persist unchanged (the rest of the window only appends artifacts
with new paths), so the occurrence from the earliest-visited, most recent
commit is the one kept. -/
theorem artifact_dedup_first_wins (commits pre post : List CommitData)
    (hsplit : commits = pre ++ post) :
    (((extractArtifacts commits).map Artifact.path).Nodup) ∧
    ∃ t, extractArtifacts commits = extractArtifacts pre ++ t := by
  constructor
  · exact (processCommits_inv commits ⟨[], []⟩ (by simp) (by simp)).1
  · subst hsplit
    rw [extractArtifacts, extractArtifacts, processCommits_append_eq]
    exact processCommits_append post (processCommits pre ⟨[], []⟩)

/-- Witness for C3: a two-commit window in which the same path appears in
both commits. -/
theorem artifact_dedup_first_wins_witness :
    (((extractArtifacts [⟨"s1", 10, .ok [⟨"cat/a.md"⟩]⟩,
        ⟨"s2", 20, .ok [⟨"cat/a.md"⟩, ⟨"cat/b.md"⟩]⟩]).map Artifact.path).Nodup) ∧
    ∃ t, extractArtifacts [⟨"s1", 10, .ok [⟨"cat/a.md"⟩]⟩,
        ⟨"s2", 20, .ok [⟨"cat/a.md"⟩, ⟨"cat/b.md"⟩]⟩] =
      extractArtifacts [⟨"s1", 10, .ok [⟨"cat/a.md"⟩]⟩] ++ t :=
  artifact_dedup_first_wins _ [⟨"s1", 10, .ok [⟨"cat/a.md"⟩]⟩]
    [⟨"s2", 20, .ok [⟨"cat/a.md"⟩, ⟨"cat/b.md"⟩]⟩] rfl

/-- Starting with a needle means the haystack splits as needle plus a
tail. -/
theorem strStarts_iff (h n : List Char) : strStarts h n = true ↔ ∃ t, h = n ++ t := by
  induction n generalizing h with
  | nil =>
    cases h <;> simp [strStarts]
  | cons d ds ih =>
    cases h with
    | nil => simp [strStarts]
    | cons c cs =>
      rw [strStarts]
      simp [ih, List.cons_append, List.cons.injEq, Bool.and_eq_true, beq_iff_eq,
        exists_and_left]

/-- Characterization of JS `replace(nd, '')`: either the needle does not
occur and the haystack is unchanged, or the earliest occurrence of the
needle is removed. -/
theorem replFirst_spec (hay nd : List Char) :
    (strHas hay nd = false ∧ replFirst hay nd = hay) ∨
    (∃ a b, hay = a ++ nd ++ b ∧ replFirst hay nd = a ++ b ∧
      ∀ a' b', hay = a' ++ nd ++ b' → a.length ≤ a'.length) := by
  induction hay with
  | nil =>
    cases nd with
    | nil => exact Or.inr ⟨[], [], rfl, rfl, fun a' b' h => by simp⟩
    | cons d ds => exact Or.inl ⟨rfl, rfl⟩
  | cons c cs ih =>
    by_cases hst : strStarts (c :: cs) nd = true
    · obtain ⟨t, ht⟩ := (strStarts_iff (c :: cs) nd).mp hst
      refine Or.inr ⟨[], t, by simpa using ht, ?_, fun a' b' h => by simp⟩
      rw [replFirst, if_pos hst, ht, List.nil_append, List.drop_left]
    · have hst' : strStarts (c :: cs) nd = false := by
        simpa using hst
      rcases ih with ⟨hnohas, heq⟩ | ⟨a, b, hsp, hrep, hmin⟩
      · refine Or.inl ⟨?_, ?_⟩
        · rw [strHas, hst', hnohas]
          rfl
        · rw [replFirst, if_neg hst, heq]
      · refine Or.inr ⟨c :: a, b, by rw [hsp]; simp, ?_, ?_⟩
        · rw [replFirst, if_neg hst, hrep]
          rfl
        · intro a' b' h'
          cases a' with
          | nil =>
            exfalso
            apply hst
            exact (strStarts_iff (c :: cs) nd).mpr ⟨b', by simpa using h'⟩
          | cons c' a'' =>
            have h'' : cs = a'' ++ nd ++ b' := by
              have hx := h'
              simp only [List.cons_append, List.cons.injEq] at hx
              exact hx.2
            simp only [List.length_cons, Nat.succ_le_succ_iff]
            exact hmin a'' b' h''

/-- The slash split never produces an empty part list. -/
theorem splitSlash_ne_nil (l : List Char) : splitSlash l ≠ [] := by
  cases l with
  | nil => simp [splitSlash]
  | cons c cs =>
    rw [splitSlash]
    split
    · simp
    · cases h : splitSlash cs <;> simp

/-- The slash split has more than one part exactly when the path contains a
slash, i.e. has a directory component. -/
theorem splitSlash_length_gt_one (l : List Char) :
    1 < (splitSlash l).length ↔ '/' ∈ l := by
  induction l with
  | nil => simp [splitSlash]
  | cons c cs ih =>
    rw [splitSlash]
    by_cases hc : c = '/'
    · subst hc
      rw [if_pos rfl]
      have hlen : 0 < (splitSlash cs).length :=
        List.length_pos.mpr (splitSlash_ne_nil cs)
      have hmem : '/' ∈ '/' :: cs := List.mem_cons_self '/' cs
      simp only [List.length_cons, hmem, iff_true]
      omega
    · rw [if_neg hc]
      cases h : splitSlash cs with
      | nil => exact absurd h (splitSlash_ne_nil cs)
      | cons g gs =>
        rw [h] at ih
        simp only [List.length_cons] at ih ⊢
        rw [List.mem_cons]
        constructor
        · intro hl
          exact Or.inr (ih.mp hl)
        · intro hm
          rcases hm with hm | hm
          · exact absurd hm.symm hc
          · exact ih.mpr hm

/-- The first part of the slash split is the longest slash-free leading
segment of the path. -/
theorem splitSlash_headI (l : List Char) :
    (splitSlash l).headI = l.takeWhile (fun c => !(c == '/')) := by
  induction l with
  | nil => simp [splitSlash]
  | cons c cs ih =>
    rw [splitSlash]
    by_cases hc : c = '/'
    · subst hc
      simp [List.takeWhile]
    · rw [if_neg hc]
      cases h : splitSlash cs with
      | nil => exact absurd h (splitSlash_ne_nil cs)
      | cons g gs =>
        rw [h] at ih
        simp only [List.headI] at ih
        have hpred : (!(c == '/')) = true := by simp [hc]
        simp [List.takeWhile, hpred, ← ih]

/-- C7 counterexample: the admitted path notes/a.mdx.md is given the name
"ax.md" by the code (JS `replace` removes the first ".md" occurrence), not
"a.mdx" (the final segment with the extension stripped from its end) as the
claim states. -/
theorem artifact_name_counterexample :
    fileEligible [] ⟨"notes/a.mdx.md"⟩ = true ∧
    deriveCategory "notes/a.mdx.md" = "notes" ∧
    deriveName "notes/a.mdx.md" = "ax.md" ∧
    specStripExtName "notes/a.mdx.md" = "a.mdx" ∧
    deriveName "notes/a.mdx.md" ≠ specStripExtName "notes/a.mdx.md" := by
  decide

/-- C7 amended: for every changed-file path, the derived category is the
first path segment when the path has a directory component and "unknown"
otherwise, and the derived name is the final path segment with the first
occurrence of ".md" removed (the whole segment when ".md" does not
occur). -/
theorem artifact_category_and_name (filename : String) :
    (deriveCategory filename =
      if '/' ∈ filename.toList
      then (⟨filename.toList.takeWhile (fun c => !(c == '/'))⟩ : String)
      else "unknown") ∧
    ((strHas ((splitSlash filename.toList).getLastD []) ".md".toList = false ∧
        deriveName filename = ⟨(splitSlash filename.toList).getLastD []⟩) ∨
      (∃ a b, (splitSlash filename.toList).getLastD [] = a ++ ".md".toList ++ b ∧
        deriveName filename = ⟨a ++ b⟩ ∧
        ∀ a' b', (splitSlash filename.toList).getLastD [] = a' ++ ".md".toList ++ b' →
          a.length ≤ a'.length)) := by
  constructor
  · rw [deriveCategory]
    by_cases h : '/' ∈ filename.toList
    · rw [if_pos ((splitSlash_length_gt_one _).mpr h), if_pos h, splitSlash_headI]
    · rw [if_neg (fun hgt => h ((splitSlash_length_gt_one _).mp hgt)), if_neg h]
  · rw [deriveName]
    rcases replFirst_spec ((splitSlash filename.toList).getLastD [])
      ".md".toList with ⟨hnohas, heq⟩ | ⟨a, b, hsp, hrep, hmin⟩
    · exact Or.inl ⟨hnohas, congrArg String.mk heq⟩
    · exact Or.inr ⟨a, b, hsp, congrArg String.mk hrep, hmin⟩

/-- C9: a full aggregation pass is a pure function of the configuration
inputs, the upstream data set and the clock: repeating the pass against the
same unchanged upstream leaves the DOM fixed (the second pass writes
byte-identical view models), and any two DOMs holding the same
configuration inputs receive identical section contents. -/
theorem refresh_idempotent (u : Upstream) (now : Int) (nowLocale : String) (d : Dom) :
    refreshAll u now nowLocale (refreshAll u now nowLocale d) =
      refreshAll u now nowLocale d ∧
    ∀ d' : Dom, getConfig d' = getConfig d →
      (refreshAll u now nowLocale d').systemStatus =
        (refreshAll u now nowLocale d).systemStatus ∧
      (refreshAll u now nowLocale d').statTranscripts =
        (refreshAll u now nowLocale d).statTranscripts ∧
      (refreshAll u now nowLocale d').statArtifacts =
        (refreshAll u now nowLocale d).statArtifacts ∧
      (refreshAll u now nowLocale d').statProjects =
        (refreshAll u now nowLocale d).statProjects ∧
      (refreshAll u now nowLocale d').transcriptJobs =
        (refreshAll u now nowLocale d).transcriptJobs ∧
      (refreshAll u now nowLocale d').libraryArtifacts =
        (refreshAll u now nowLocale d).libraryArtifacts ∧
      (refreshAll u now nowLocale d').labProjects =
        (refreshAll u now nowLocale d).labProjects ∧
      (refreshAll u now nowLocale d').lastUpdated =
        (refreshAll u now nowLocale d).lastUpdated := by
  refine ⟨rfl, ?_⟩
  intro d' h
  have hc : getConfig { d' with lastUpdated := "Refreshing..." } =
      getConfig { d with lastUpdated := "Refreshing..." } := h
  refine ⟨?_, ?_, ?_, ?_, ?_, ?_, ?_, ?_⟩ <;>
    simp only [refreshAll] <;> rw [hc]

/-- Witness for C9: two DOMs with equal configuration inputs but different
section contents receive the same status board. -/
theorem refresh_idempotent_witness :
    (refreshAll ⟨fun _ _ => .error (), fun _ => .error (), fun _ => .error (),
        fun _ => .error (), fun _ _ => .error (), fun _ => .error (),
        fun _ => .error (), fun _ _ => .error (), fun _ => .error (),
        fun _ _ => .error (), fun _ _ => .error ()⟩ 0 "t"
      ⟨"", "", [], "x", "", "", .errorMsg, .errorMsg, .errorMsg, ""⟩).systemStatus =
    (refreshAll ⟨fun _ _ => .error (), fun _ => .error (), fun _ => .error (),
        fun _ => .error (), fun _ _ => .error (), fun _ => .error (),
        fun _ => .error (), fun _ _ => .error (), fun _ => .error (),
        fun _ _ => .error (), fun _ _ => .error ()⟩ 0 "t"
      ⟨"", "", [], "", "", "", .errorMsg, .errorMsg, .errorMsg, ""⟩).systemStatus :=
  ((refresh_idempotent _ 0 "t"
    ⟨"", "", [], "", "", "", .errorMsg, .errorMsg, .errorMsg, ""⟩).2
    ⟨"", "", [], "x", "", "", .errorMsg, .errorMsg, .errorMsg, ""⟩ rfl).1

end Legato
